import Mathlib

/-
  Shallow embedding of src/app.py, a Flask application for legal case
  record keeping.  Database rows become Lean structures, the database
  becomes lists inside an explicit AppState, the Flask session becomes an
  Option Nat argument (the user id bound to the session, if any), request
  bodies become Option-typed records (None models a missing JSON key, the
  outer Option models request.get_json() returning None), and datetimes
  used only as creation timestamps are modelled as an abstract tick
  counter.  Password hashing is external (werkzeug); handlers that use it
  take the hash / check functions as parameters.
-/

namespace App

/-- A JSON value, used for response bodies. -/
inductive Json where
  | null : Json
  | str : String → Json
  | nat : Nat → Json
  | bool : Bool → Json
  | arr : List Json → Json
  | obj : List (String × Json) → Json

/-- An HTTP response: status code and JSON body. -/
structure Response where
  status : Nat
  body : Json

/-- The error bodies produced by jsonify with an error key. -/
def errBody (msg : String) : Json :=
  Json.obj [("error", Json.str msg)]

/-- The keys of a JSON object (empty for non-objects). -/
def jsonKeys : Json → List String
  | Json.obj kvs => kvs.map Prod.fst
  | _ => []

/-- Look up a key in a JSON object. -/
def jsonGet (j : Json) (k : String) : Option Json :=
  match j with
  | Json.obj kvs => (kvs.find? (fun kv => kv.fst == k)).map Prod.snd
  | _ => none

/-- A calendar date, as produced by datetime.date. -/
structure Date where
  year : Nat
  month : Nat
  day : Nat
deriving DecidableEq, Repr

/-- A clock time with minute precision, as parsed by strptime with format HH:MM. -/
structure Time where
  hour : Nat
  minute : Nat
deriving DecidableEq, Repr

/-- Python date ordering: lexicographic on (year, month, day). -/
def Date.le (a b : Date) : Prop :=
  a.year < b.year ∨
    (a.year = b.year ∧
      (a.month < b.month ∨ (a.month = b.month ∧ a.day ≤ b.day)))

instance Date.decLe : DecidableRel Date.le := fun a b => by
  unfold Date.le; infer_instance

theorem Date.le_total (a b : Date) : Date.le a b ∨ Date.le b a := by
  unfold Date.le; omega

theorem Date.le_trans {a b c : Date} (h1 : Date.le a b) (h2 : Date.le b c) :
    Date.le a c := by
  unfold Date.le at h1 h2 ⊢; omega

/-- ASCII whitespace, the characters str.strip removes on the inputs in
scope. -/
def isSpaceChar (c : Char) : Bool :=
  c == ' ' || c == '\t' || c == '\n' || c == '\r'

/-- Python str.strip(): drop whitespace from both ends.  Defined over the
character list so that it reduces inside the kernel. -/
def pyStrip (s : String) : String :=
  String.mk (((s.data.dropWhile isSpaceChar).reverse.dropWhile
    isSpaceChar).reverse)

/-- Python str.lower() for the ASCII inputs in scope. -/
def pyLower (s : String) : String :=
  String.mk (s.data.map Char.toLower)

/-- The email normalization of the register and login routes:
data.get with default empty string, then strip, then lower. -/
def normEmail (o : Option String) : String :=
  pyLower (pyStrip (o.getD ""))

/-- Split a character list at a separator character. -/
def splitChars (sep : Char) : List Char → List Char → List (List Char)
  | [], acc => [acc.reverse]
  | c :: cs, acc =>
    if c == sep then acc.reverse :: splitChars sep cs []
    else splitChars sep cs (c :: acc)

/-- Split a string at a separator character (String.splitOn for a
one-character separator, in a kernel-reducible form). -/
def splitOnChar (sep : Char) (s : String) : List String :=
  (splitChars sep s.data []).map String.mk

/-- Fold a digit string to a Nat (the digits are validated separately). -/
def digitsToNat (s : String) : Nat :=
  s.data.foldl (fun n c => n * 10 + (c.toNat - 48)) 0

/-- Whether a string is all digits and of length between lo and hi. -/
def digitField (s : String) (lo hi : Nat) : Bool :=
  lo ≤ s.length && s.length ≤ hi && s.data.all Char.isDigit

/-- Gregorian leap year, as used by datetime. -/
def isLeap (y : Nat) : Bool :=
  y % 4 == 0 && (y % 100 != 0 || y % 400 == 0)

/-- Days in a month, as validated by datetime. -/
def daysInMonth (y m : Nat) : Nat :=
  if m = 2 then (if isLeap y then 29 else 28)
  else if m = 4 ∨ m = 6 ∨ m = 9 ∨ m = 11 then 30
  else 31

/-- The strptime %d field: one or two digits, or a blank followed by a
nonzero digit (the CPython pattern also allows a blank-padded day). -/
def dayField (s : String) : Bool :=
  digitField s 1 2 ||
    (match s.data with
     | [' ', c] => c.isDigit && c != '0'
     | _ => false)

/-- The numeric value of a strptime %d match, ignoring the optional
leading blank. -/
def dayValue (s : String) : Nat :=
  digitsToNat (String.mk (s.data.dropWhile (fun c => c == ' ')))

/-- datetime.strptime(s, "%Y-%m-%d").date(): %Y takes exactly 4 digits,
%m takes 1-2 digits, %d takes 1-2 digits or a blank-padded digit, and
the result must be a real calendar date with year at least 1 (the
out-of-range values the CPython field patterns exclude are equivalently
excluded here by the range checks).  Returns none where strptime or the
date constructor raises. -/
def parseDate (s : String) : Option Date :=
  match splitOnChar '-' s with
  | [ys, ms, ds] =>
    if digitField ys 4 4 && digitField ms 1 2 && dayField ds then
      let y := digitsToNat ys
      let m := digitsToNat ms
      let d := dayValue ds
      if 1 ≤ y ∧ 1 ≤ m ∧ m ≤ 12 ∧ 1 ≤ d ∧ d ≤ daysInMonth y m then
        some ⟨y, m, d⟩
      else none
    else none
  | _ => none

/-- datetime.strptime(s, "%H:%M").time(): %H and %M take 1-2 digits,
hour below 24, minute below 60. -/
def parseTime (s : String) : Option Time :=
  match splitOnChar ':' s with
  | [hs, ms] =>
    if digitField hs 1 2 && digitField ms 1 2 then
      let h := digitsToNat hs
      let m := digitsToNat ms
      if h ≤ 23 ∧ m ≤ 59 then some ⟨h, m⟩ else none
    else none
  | _ => none

/-- strptime applied to data.get(k): a missing key gives None, on which
strptime raises (TypeError), modelled as none. -/
def parseDateOpt (o : Option String) : Option Date :=
  o.bind parseDate

def parseTimeOpt (o : Option String) : Option Time :=
  o.bind parseTime

/-- Left-pad a numeral with zeros to width w. -/
def padNat (w n : Nat) : String :=
  let s := toString n
  String.mk (List.replicate (w - s.length) '0') ++ s

/-- date.isoformat(): YYYY-MM-DD with zero padding. -/
def Date.iso (d : Date) : String :=
  padNat 4 d.year ++ "-" ++ padNat 2 d.month ++ "-" ++ padNat 2 d.day

/- Database rows (src/app.py lines 41-104). -/

/-- A row of the user table. -/
structure UserRec where
  id : Nat
  email : String
  password_hash : String
  first_name : String
  last_name : String
deriving DecidableEq, Repr

/-- A row of the case table. -/
structure CaseRec where
  id : Nat
  user_id : Nat
  case_title : String
  case_focus : String
  legal_domain : String
deriving DecidableEq, Repr

/-- A row of the timeline_event table. -/
structure EventRec where
  id : Nat
  case_id : Nat
  event_date : Date
  event_time : Option Time
  event_title : String
  event_description : String
  category : String
  evidence_type : String
  impact_level : String
  witness_present : Bool
  police_called : Bool
  created_at : Nat
deriving DecidableEq, Repr

/-- A row of the communication table.  Nullable columns are Options. -/
structure CommRec where
  id : Nat
  user_id : Nat
  date : Date
  time : Time
  platform : String
  sender : String
  recipient : String
  message_content : String
  neutral_summary : String
  evidence_type : Option String
  evidence_summary : Option String
  court_order_relevance : Bool
  missed_exchange_reference : Bool
  refusal_to_provide_info : Bool
  inappropriate_tone : Bool
  marking : String
  created_at : Nat
deriving DecidableEq, Repr

/-- The persistent store plus autoincrement counters and a clock for
created_at timestamps. -/
structure AppState where
  users : List UserRec
  cases : List CaseRec
  events : List EventRec
  comms : List CommRec
  nextUserId : Nat
  nextCaseId : Nat
  nextEventId : Nat
  nextCommId : Nat
  clock : Nat
deriving DecidableEq, Repr

/- Request bodies.  A field of value none models a JSON key that is
absent from the request body. -/

structure RegisterReq where
  email : Option String
  password : Option String
  first_name : Option String
  last_name : Option String
deriving DecidableEq, Repr

structure LoginReq where
  email : Option String
  password : Option String
deriving DecidableEq, Repr

structure CaseReq where
  case_title : Option String
  case_focus : Option String
  legal_domain : Option String
deriving DecidableEq, Repr

structure EventReq where
  case_id : Option Nat
  event_date : Option String
  event_title : Option String
  event_description : Option String
  category : Option String
  evidence_type : Option String
  impact_level : Option String
  witness_present : Option Bool
  police_called : Option Bool
deriving DecidableEq, Repr

structure CommReq where
  date : Option String
  time : Option String
  platform : Option String
  sender : Option String
  recipient : Option String
  messageContent : Option String
  neutralSummary : Option String
  evidenceType : Option String
  evidenceSummary : Option String
  courtOrderRelevance : Option Bool
  missedExchangeReference : Option Bool
  refusalToProvideInfo : Option Bool
  inappropriateTone : Option Bool
  marking : Option String
deriving DecidableEq, Repr

/- Handlers.  Each mirrors one route of src/app.py in source order. -/

/-- POST /api/register (src/app.py lines 185-226).  The hash parameter
models werkzeug generate_password_hash.  Returns the response, the new
state, and the session binding established on success (none = session
left untouched). -/
def register (hash : String → String) (st : AppState)
    (data : Option RegisterReq) : Response × AppState × Option Nat :=
  match data with
  | none => (⟨400, errBody "No data provided"⟩, st, none)
  | some d =>
    let email := normEmail d.email
    let password := d.password.getD ""
    let fname := pyStrip (d.first_name.getD "")
    let lname := pyStrip (d.last_name.getD "")
    if email = "" ∨ password = "" then
      (⟨400, errBody "Email and password are required"⟩, st, none)
    else if password.length < 6 then
      (⟨400, errBody "Password must be at least 6 characters"⟩, st, none)
    else
      match st.users.find? (fun u => u.email == email) with
      | some _ => (⟨400, errBody "User already exists"⟩, st, none)
      | none =>
        let u : UserRec :=
          ⟨st.nextUserId, email, hash password, fname, lname⟩
        (⟨200, Json.obj [("success", Json.bool true),
                         ("user_id", Json.nat u.id)]⟩,
         { st with users := st.users ++ [u], nextUserId := st.nextUserId + 1 },
         some u.id)

/-- POST /api/login (src/app.py lines 228-252).  The check parameter
models werkzeug check_password_hash.  Second component is the session
binding established on success (none = session left untouched). -/
def login (check : String → String → Bool) (st : AppState)
    (data : Option LoginReq) : Response × Option Nat :=
  match data with
  | none => (⟨400, errBody "No data provided"⟩, none)
  | some d =>
    let email := normEmail d.email
    let password := d.password.getD ""
    if email = "" ∨ password = "" then
      (⟨400, errBody "Email and password are required"⟩, none)
    else
      match st.users.find? (fun u => u.email == email) with
      | some u =>
        if check u.password_hash password then
          (⟨200, Json.obj [("success", Json.bool true),
                           ("user_id", Json.nat u.id)]⟩, some u.id)
        else (⟨401, errBody "Invalid credentials"⟩, none)
      | none => (⟨401, errBody "Invalid credentials"⟩, none)

/-- POST /api/case (src/app.py lines 263-295).  legal_domain is the fixed
constant FAMILY_LAW; the legal_domain field of the body is never read. -/
def createCase (st : AppState) (sess : Option Nat)
    (data : Option CaseReq) : Response × AppState :=
  match sess with
  | none => (⟨401, errBody "Not authenticated"⟩, st)
  | some uid =>
    match data with
    | none => (⟨400, errBody "No data provided"⟩, st)
    | some d =>
      let title := pyStrip (d.case_title.getD "")
      let focus := d.case_focus.getD "CUSTODY_PARENTING"
      if title = "" then (⟨400, errBody "Case title is required"⟩, st)
      else
        let c : CaseRec := ⟨st.nextCaseId, uid, title, focus, "FAMILY_LAW"⟩
        (⟨200, Json.obj [("success", Json.bool true),
                         ("case_id", Json.nat c.id)]⟩,
         { st with cases := st.cases ++ [c],
                   nextCaseId := st.nextCaseId + 1 })

/-- Python truthiness of data.get from a JSON body: None and 0 are falsy. -/
def natFalsy (o : Option Nat) : Bool :=
  match o with
  | none => true
  | some n => n == 0

/-- Python truthiness for an optional string: None and the empty string. -/
def strFalsy (o : Option String) : Bool :=
  match o with
  | none => true
  | some s => s == ""

/-- POST /api/timeline_event (src/app.py lines 297-347). -/
def createTimelineEvent (st : AppState) (sess : Option Nat)
    (data : Option EventReq) : Response × AppState :=
  match sess with
  | none => (⟨401, errBody "Not authenticated"⟩, st)
  | some uid =>
    match data with
    | none => (⟨400, errBody "No data provided"⟩, st)
    | some d =>
      let title := pyStrip (d.event_title.getD "")
      if natFalsy d.case_id ∨ strFalsy d.event_date ∨ title = "" then
        (⟨400, errBody "Case ID, event date, and event title are required"⟩,
         st)
      else
        match parseDate (d.event_date.getD "") with
        | none => (⟨400, errBody "Invalid date format. Use YYYY-MM-DD"⟩, st)
        | some dt =>
          let cid := d.case_id.getD 0
          match st.cases.find? (fun c => c.id == cid) with
          | some c =>
            if c.user_id == uid then
              let ev : EventRec :=
                ⟨st.nextEventId, cid, dt, none, title,
                 pyStrip (d.event_description.getD ""),
                 d.category.getD "PARENTING_TIME",
                 d.evidence_type.getD "",
                 d.impact_level.getD "medium",
                 d.witness_present.getD false,
                 d.police_called.getD false,
                 st.clock⟩
              (⟨200, Json.obj [("success", Json.bool true),
                               ("event_id", Json.nat ev.id)]⟩,
               { st with events := st.events ++ [ev],
                         nextEventId := st.nextEventId + 1,
                         clock := st.clock + 1 })
            else
              (⟨404, errBody "Case not found or access denied"⟩, st)
          | none => (⟨404, errBody "Case not found or access denied"⟩, st)

/-- Ascending event_date order between events. -/
def evLe (a b : EventRec) : Prop := Date.le a.event_date b.event_date

/-- Descending event_date order between events. -/
def evGe (a b : EventRec) : Prop := Date.le b.event_date a.event_date

instance evLe.dec : DecidableRel evLe := fun a b => by
  unfold evLe; infer_instance

instance evGe.dec : DecidableRel evGe := fun a b => by
  unfold evGe; infer_instance

instance evLe.total : IsTotal EventRec evLe :=
  ⟨fun a b => Date.le_total a.event_date b.event_date⟩

instance evGe.total : IsTotal EventRec evGe :=
  ⟨fun a b => (Date.le_total b.event_date a.event_date).symm.symm⟩

instance evLe.trans : IsTrans EventRec evLe :=
  ⟨fun _ _ _ h1 h2 => Date.le_trans h1 h2⟩

instance evGe.trans : IsTrans EventRec evGe :=
  ⟨fun _ _ _ h1 h2 => Date.le_trans h2 h1⟩

/-- The ORM query for a case, ordered by event_date ascending.  The
database sort is modelled by insertionSort, a stable sort. -/
def caseEventsSorted (st : AppState) (cid : Nat) : List EventRec :=
  List.insertionSort evLe (st.events.filter (fun e => e.case_id == cid))

/-- Serialization of one event (src/app.py lines 364-375): the keys
written by the route, in source order.  event_time and case_id are not
serialized. -/
def serializeEvent (e : EventRec) : Json :=
  Json.obj [("id", Json.nat e.id),
            ("event_date", Json.str e.event_date.iso),
            ("event_title", Json.str e.event_title),
            ("event_description", Json.str e.event_description),
            ("category", Json.str e.category),
            ("evidence_type", Json.str e.evidence_type),
            ("impact_level", Json.str e.impact_level),
            ("witness_present", Json.bool e.witness_present),
            ("police_called", Json.bool e.police_called),
            ("created_at", Json.nat e.created_at)]

/-- The column names of the TimelineEvent model (src/app.py lines 62-74). -/
def timelineEventFields : List String :=
  ["id", "case_id", "event_date", "event_time", "event_title",
   "event_description", "category", "evidence_type", "impact_level",
   "witness_present", "police_called", "created_at"]

/-- GET /api/timeline_events/case_id (src/app.py lines 349-381). -/
def getTimelineEvents (st : AppState) (sess : Option Nat)
    (cid : Nat) : Response :=
  match sess with
  | none => ⟨401, errBody "Not authenticated"⟩
  | some uid =>
    match st.cases.find? (fun c => c.id == cid) with
    | some c =>
      if c.user_id == uid then
        ⟨200, Json.arr ((caseEventsSorted st cid).map serializeEvent)⟩
      else ⟨404, errBody "Case not found or access denied"⟩
    | none => ⟨404, errBody "Case not found or access denied"⟩

/-- Python truthiness of the parsed JSON body: the route's check treats
an empty dict like a missing body.  Under the record abstraction the
empty JSON object is the record with every field absent. -/
def CommReq.isEmptyBody (d : CommReq) : Bool :=
  d.date.isNone && d.time.isNone && d.platform.isNone && d.sender.isNone &&
    d.recipient.isNone && d.messageContent.isNone &&
    d.neutralSummary.isNone && d.evidenceType.isNone &&
    d.evidenceSummary.isNone && d.courtOrderRelevance.isNone &&
    d.missedExchangeReference.isNone && d.refusalToProvideInfo.isNone &&
    d.inappropriateTone.isNone && d.marking.isNone

/-- POST /api/communication (src/app.py lines 384-421).  The if-not-data
check returns 400 for a missing body and for the falsy empty dict.  The
route has no explicit validation beyond that: a strptime failure on date
or time, and a NOT NULL violation raised at commit for a missing required
column, are both caught by the blanket except block, which rolls back and
returns 500. -/
def addCommunication (st : AppState) (sess : Option Nat)
    (data : Option CommReq) : Response × AppState :=
  match sess with
  | none => (⟨401, errBody "Not authenticated"⟩, st)
  | some uid =>
    match data with
    | none => (⟨400, errBody "No data provided"⟩, st)
    | some d =>
      if d.isEmptyBody then (⟨400, errBody "No data provided"⟩, st) else
      match parseDateOpt d.date with
      | none => (⟨500, errBody "Communication entry failed"⟩, st)
      | some dt =>
        match parseTimeOpt d.time with
        | none => (⟨500, errBody "Communication entry failed"⟩, st)
        | some tm =>
          match d.platform, d.sender, d.recipient,
                d.messageContent, d.neutralSummary with
          | some pf, some sd, some rc, some mc, some ns =>
            let m : CommRec :=
              ⟨st.nextCommId, uid, dt, tm, pf, sd, rc, mc, ns,
               d.evidenceType, d.evidenceSummary,
               d.courtOrderRelevance.getD false,
               d.missedExchangeReference.getD false,
               d.refusalToProvideInfo.getD false,
               d.inappropriateTone.getD false,
               d.marking.getD "documentation",
               st.clock⟩
            (⟨200, Json.obj [("success", Json.bool true),
                             ("communication_id", Json.nat m.id)]⟩,
             { st with comms := st.comms ++ [m],
                       nextCommId := st.nextCommId + 1,
                       clock := st.clock + 1 })
          | _, _, _, _, _ =>
            (⟨500, errBody "Communication entry failed"⟩, st)

/-- DELETE /api/communication/comm_id (src/app.py lines 458-477).  The
missing-id branch: get_or_404 raises NotFound, which is a subclass of
Exception, so the blanket except in the route catches it and returns 500
with body Delete failed, instead of letting Flask serve the 404. -/
def deleteCommunication (st : AppState) (sess : Option Nat)
    (cid : Nat) : Response × AppState :=
  match sess with
  | none => (⟨401, errBody "Not authenticated"⟩, st)
  | some uid =>
    match st.comms.find? (fun m => m.id == cid) with
    | none => (⟨500, errBody "Delete failed"⟩, st)
    | some m =>
      if m.user_id == uid then
        (⟨200, Json.obj [("success", Json.bool true)]⟩,
         { st with comms := st.comms.eraseP (fun x => x.id == cid) })
      else (⟨403, errBody "Access denied"⟩, st)

/-- The cases owned by a user, in table order. -/
def userCases (st : AppState) (uid : Nat) : List CaseRec :=
  st.cases.filter (fun c => c.user_id == uid)

/-- The per-case query of the dashboard (src/app.py line 152): events of
one case ordered by event_date descending, limited to 5. -/
def caseTop5 (st : AppState) (cid : Nat) : List EventRec :=
  (List.insertionSort evGe (st.events.filter (fun e => e.case_id == cid))).take 5

/-- The recent-events pool the dashboard accumulates over the cases of
the user (src/app.py lines 149-153). -/
def dashboardPool (st : AppState) (uid : Nat) : List EventRec :=
  ((userCases st uid).map (fun c => caseTop5 st c.id)).flatten

/-- The recent_events list the dashboard renders (src/app.py lines
154-160): the pool sorted by event_date descending, truncated to 5. -/
def dashboardRecent (st : AppState) (uid : Nat) : List EventRec :=
  (List.insertionSort evGe (dashboardPool st uid)).take 5

/-- All timeline events of the cases of a user, as the dashboard
iterates them: per owned case, the events of that case. -/
def dashboardAll (st : AppState) (uid : Nat) : List EventRec :=
  ((userCases st uid).map
    (fun c => st.events.filter (fun e => e.case_id == c.id))).flatten

/- Concrete fixtures used by witnesses and counterexamples. -/

/-- A concrete stand-in for werkzeug generate_password_hash. -/
def hash0 : String → String := fun s => s ++ "#h"

/-- The matching stand-in for werkzeug check_password_hash. -/
def check0 : String → String → Bool := fun h p => h == p ++ "#h"

def u1 : UserRec := ⟨1, "a@x.com", "secret1#h", "Ann", "Lee"⟩

def u2 : UserRec := ⟨2, "b@y.com", "secret2#h", "Bob", "Kim"⟩

def case1 : CaseRec := ⟨1, 1, "Custody Matter", "CUSTODY_PARENTING", "FAMILY_LAW"⟩

def case2 : CaseRec := ⟨2, 2, "Other Matter", "CUSTODY_PARENTING", "FAMILY_LAW"⟩

def ev1 : EventRec :=
  ⟨1, 1, ⟨2024, 1, 10⟩, none, "Missed pickup", "", "PARENTING_TIME", "",
   "medium", false, false, 0⟩

def m1 : CommRec :=
  ⟨1, 1, ⟨2024, 2, 1⟩, ⟨9, 30⟩, "SMS", "Ann", "Bob", "msg", "neutral",
   none, none, false, false, false, false, "documentation", 1⟩

def m2 : CommRec :=
  ⟨2, 2, ⟨2024, 2, 2⟩, ⟨10, 0⟩, "Email", "Bob", "Ann", "msg2", "neutral2",
   none, none, false, false, false, false, "documentation", 2⟩

/-- A populated store: two users, a case and a communication each. -/
def stMain : AppState :=
  ⟨[u1, u2], [case1, case2], [ev1], [m1, m2], 3, 3, 2, 3, 3⟩

/- Claim theorems. -/

/-- C2: every Case created through POST /api/case has legal_domain equal
to FAMILY_LAW, for every client request body, including bodies that
supply their own legal_domain value: any case of the post-state is either
a pre-existing case or has legal_domain FAMILY_LAW. -/
theorem c2_legal_domain_fixed (st : AppState) (sess : Option Nat)
    (data : Option CaseReq) :
    ∀ c ∈ (createCase st sess data).2.cases,
      c ∈ st.cases ∨ c.legal_domain = "FAMILY_LAW" := by
  intro c hc
  rcases sess with _ | uid
  · exact Or.inl hc
  · rcases data with _ | d
    · exact Or.inl hc
    · simp only [createCase] at hc
      split at hc
      · exact Or.inl hc
      · rw [List.mem_append, List.mem_singleton] at hc
        rcases hc with h | h
        · exact Or.inl h
        · right; rw [h]

/-- Witness for C2: a body that supplies legal_domain PATENT_LAW still
yields a FAMILY_LAW case. -/
theorem c2_legal_domain_fixed_witness :
    (⟨3, 1, "New Matter", "CUSTODY_PARENTING", "FAMILY_LAW"⟩ : CaseRec) ∈
        stMain.cases ∨
      (⟨3, 1, "New Matter", "CUSTODY_PARENTING", "FAMILY_LAW"⟩ :
        CaseRec).legal_domain = "FAMILY_LAW" :=
  c2_legal_domain_fixed stMain (some 1)
    (some ⟨some "New Matter", none, some "PATENT_LAW"⟩)
    ⟨3, 1, "New Matter", "CUSTODY_PARENTING", "FAMILY_LAW"⟩ (by decide)

/-- C3: a login with a registered email but wrong password and a login
with an email matching no user produce the same response: status 401 with
the identical Invalid credentials body, and neither binds the session. -/
theorem c3_login_indistinguishable (check : String → String → Bool)
    (st : AppState) (d1 d2 : LoginReq) (u : UserRec)
    (he1 : normEmail d1.email ≠ "")
    (hp1 : d1.password.getD "" ≠ "")
    (he2 : normEmail d2.email ≠ "")
    (hp2 : d2.password.getD "" ≠ "")
    (hf1 : st.users.find?
      (fun x => x.email == normEmail d1.email) = some u)
    (hchk : check u.password_hash (d1.password.getD "") = false)
    (hf2 : st.users.find?
      (fun x => x.email == normEmail d2.email) = none) :
    login check st (some d1) = (⟨401, errBody "Invalid credentials"⟩, none) ∧
      login check st (some d2) =
        (⟨401, errBody "Invalid credentials"⟩, none) := by
  constructor
  · simp only [login, hf1, hchk]
    rw [if_neg (by simp [he1, hp1])]
    simp
  · simp only [login, hf2]
    rw [if_neg (by simp [he2, hp2])]

/-- Witness for C3: wrong password for the registered a@x.com versus the
unknown c@z.com. -/
theorem c3_login_indistinguishable_witness :
    login check0 stMain (some ⟨some "a@x.com", some "wrongpw"⟩) =
        (⟨401, errBody "Invalid credentials"⟩, none) ∧
      login check0 stMain (some ⟨some "c@z.com", some "secret1"⟩) =
        (⟨401, errBody "Invalid credentials"⟩, none) :=
  c3_login_indistinguishable check0 stMain
    ⟨some "a@x.com", some "wrongpw"⟩ ⟨some "c@z.com", some "secret1"⟩ u1
    (by decide) (by decide) (by decide) (by decide) (by decide) (by decide)
    (by decide)

/-- C5 counterexample: a date not in YYYY-MM-DD format yields status 500,
not the claimed 400 (the strptime failure is caught by the blanket except
block), though indeed nothing is written. -/
theorem c5_counterexample :
    (addCommunication stMain (some 1)
        (some ⟨some "03/15/2024", some "12:00", some "SMS", some "Ann",
               some "Bob", some "hello", some "neutral", none, none, none,
               none, none, none, none⟩)).1.status = 500 ∧
      ¬ (addCommunication stMain (some 1)
        (some ⟨some "03/15/2024", some "12:00", some "SMS", some "Ann",
               some "Bob", some "hello", some "neutral", none, none, none,
               none, none, none, none⟩)).1.status = 400 ∧
      (addCommunication stMain (some 1)
        (some ⟨some "03/15/2024", some "12:00", some "SMS", some "Ann",
               some "Bob", some "hello", some "neutral", none, none, none,
               none, none, none, none⟩)).2 = stMain := by
  refine ⟨rfl, by decide, rfl⟩

/-- C5 amended: an authenticated POST /api/communication with a
non-empty body whose date field is absent or does not parse under
strptime %Y-%m-%d, or whose time field is absent or does not parse under
strptime %H:%M, returns 500 with the generic Communication entry failed
body, and writes nothing: the state is unchanged. -/
theorem c5_malformed_datetime (st : AppState) (uid : Nat) (d : CommReq)
    (hne : d.isEmptyBody = false)
    (h : parseDateOpt d.date = none ∨ parseTimeOpt d.time = none) :
    addCommunication st (some uid) (some d) =
      (⟨500, errBody "Communication entry failed"⟩, st) := by
  rcases h with h | h
  · simp only [addCommunication, hne, Bool.false_eq_true, if_false, h]
  · cases hd : parseDateOpt d.date with
    | none =>
      simp only [addCommunication, hne, Bool.false_eq_true, if_false, hd]
    | some dt =>
      simp only [addCommunication, hne, Bool.false_eq_true, if_false, hd, h]

/-- Witness for C5 (amended): a malformed time field. -/
theorem c5_malformed_datetime_witness :
    addCommunication stMain (some 1)
        (some ⟨some "2024-03-15", some "9:99", some "SMS", some "Ann",
               some "Bob", some "hello", some "neutral", none, none, none,
               none, none, none, none⟩) =
      (⟨500, errBody "Communication entry failed"⟩, stMain) :=
  c5_malformed_datetime stMain 1
    ⟨some "2024-03-15", some "9:99", some "SMS", some "Ann", some "Bob",
     some "hello", some "neutral", none, none, none, none, none, none, none⟩
    (by decide) (Or.inr (by decide))

/-- C6: behavior of DELETE /api/communication at the three inputs the
claim describes, on the populated store, session user 1: a missing id
returns 500 (the 404 raised by get_or_404 is swallowed by the blanket
except handler), not the 404 the claim states; a communication of user 2
gives 403 and deletes nothing; the own communication is deleted with a
success response. -/
theorem c6_delete_communication_eval :
    deleteCommunication stMain (some 1) 99 =
        (⟨500, errBody "Delete failed"⟩, stMain) ∧
      deleteCommunication stMain (some 1) 2 =
        (⟨403, errBody "Access denied"⟩, stMain) ∧
      (deleteCommunication stMain (some 1) 1).1 =
        ⟨200, Json.obj [("success", Json.bool true)]⟩ ∧
      (deleteCommunication stMain (some 1) 1).2.comms = [m2] := by
  refine ⟨rfl, rfl, rfl, rfl⟩

/-- C8 counterexample: a duplicate-email registration whose password is
too short fails with the password validation message, not the claimed
conflict error (and the two bodies differ), though no row is written. -/
theorem c8_counterexample :
    (register hash0 stMain
        (some ⟨some "a@x.com", some "ab", none, none⟩)).1 =
        ⟨400, errBody "Password must be at least 6 characters"⟩ ∧
      "Password must be at least 6 characters" ≠ "User already exists" ∧
      (register hash0 stMain
        (some ⟨some "a@x.com", some "ab", none, none⟩)).2.1.users =
        stMain.users := by
  refine ⟨rfl, by decide, rfl⟩

/-- C8 amended: a registration request that passes field validation
(nonempty email and password, password of length at least 6) and whose
normalized email matches a stored user returns 400 User already exists
and changes nothing; and for every request whose normalized email matches
a stored user, validated or not, no user row is added. -/
theorem c8_duplicate_email (hash : String → String) (st : AppState)
    (d d2 : RegisterReq) (u u2 : UserRec)
    (he : normEmail d.email ≠ "")
    (hp : d.password.getD "" ≠ "")
    (hlen : ¬ (d.password.getD "").length < 6)
    (hf : st.users.find? (fun x => x.email == normEmail d.email) = some u)
    (hf2 : st.users.find? (fun x => x.email == normEmail d2.email) = some u2) :
    register hash st (some d) =
        (⟨400, errBody "User already exists"⟩, st, none) ∧
      (register hash st (some d2)).2.1.users = st.users := by
  constructor
  · simp only [register, hf]
    rw [if_neg (by simp [he, hp]), if_neg hlen]
  · simp only [register]
    split
    · rfl
    · split
      · rfl
      · simp only [hf2]

/-- Witness for C8 (amended): the email differs from the stored one only
by case and surrounding blanks, and registration is refused. -/
theorem c8_duplicate_email_witness :
    register hash0 stMain
        (some ⟨some " A@X.com ", some "secret9", some "Ann", none⟩) =
        (⟨400, errBody "User already exists"⟩, stMain, none) ∧
      (register hash0 stMain
        (some ⟨some "a@x.com", some "ab", none, none⟩)).2.1.users =
        stMain.users :=
  c8_duplicate_email hash0 stMain
    ⟨some " A@X.com ", some "secret9", some "Ann", none⟩
    ⟨some "a@x.com", some "ab", none, none⟩ u1 u1
    (by decide) (by decide) (by decide) (by decide) (by decide)

/-- A store for the round-trip scenario: one user owning one case with
no events yet. -/
def stC9 : AppState := ⟨[u1], [case1], [], [], 2, 2, 1, 1, 0⟩

def evBodyC9 : EventReq :=
  ⟨some 1, some "2024-03-15", some "Missed pickup", none, none, none,
   none, none, none⟩

/-- C9: creating a timeline event with event_date 2024-03-15 and then
listing the case returns exactly one entry whose event_date field
serializes back to the string 2024-03-15: parsing followed by ISO-8601
serialization is the identity here. -/
theorem c9_date_roundtrip :
    (createTimelineEvent stC9 (some 1) (some evBodyC9)).1.status = 200 ∧
      getTimelineEvents (createTimelineEvent stC9 (some 1)
          (some evBodyC9)).2 (some 1) 1 =
        ⟨200, Json.arr [serializeEvent
          ⟨1, 1, ⟨2024, 3, 15⟩, none, "Missed pickup", "",
           "PARENTING_TIME", "", "medium", false, false, 0⟩]⟩ ∧
      jsonGet (serializeEvent
          ⟨1, 1, ⟨2024, 3, 15⟩, none, "Missed pickup", "",
           "PARENTING_TIME", "", "medium", false, false, 0⟩) "event_date" =
        some (Json.str "2024-03-15") := by
  refine ⟨rfl, rfl, rfl⟩

/-- C1: for a session user a and resources owned by a different user b,
the three public operations deny access without mutating anything:
listing the timeline of a case of b returns the 404 error, posting a
timeline event against a case of b returns an error status of at least
400 and leaves the state unchanged, and deleting a communication of b
returns 403 and leaves the state unchanged. -/
theorem c1_cross_owner_denied (st : AppState) (a b cid mid : Nat)
    (c : CaseRec) (m : CommRec) (d : EventReq)
    (hab : a ≠ b)
    (hc : st.cases.find? (fun x => x.id == cid) = some c)
    (hcb : c.user_id = b)
    (hd : d.case_id = some cid)
    (hm : st.comms.find? (fun x => x.id == mid) = some m)
    (hmb : m.user_id = b) :
    getTimelineEvents st (some a) cid =
        ⟨404, errBody "Case not found or access denied"⟩ ∧
      (400 ≤ (createTimelineEvent st (some a) (some d)).1.status ∧
        (createTimelineEvent st (some a) (some d)).2 = st) ∧
      deleteCommunication st (some a) mid =
        (⟨403, errBody "Access denied"⟩, st) := by
  have hba : (c.user_id == a) = false := by
    rw [hcb]; exact beq_eq_false_iff_ne.mpr (Ne.symm hab)
  have hmba : (m.user_id == a) = false := by
    rw [hmb]; exact beq_eq_false_iff_ne.mpr (Ne.symm hab)
  refine ⟨?_, ?_, ?_⟩
  · simp only [getTimelineEvents, hc, hba, Bool.false_eq_true, if_false]
  · simp only [createTimelineEvent]
    split
    · exact ⟨Nat.le_refl 400, rfl⟩
    · cases hp : parseDate (d.event_date.getD "") with
      | none => exact ⟨Nat.le_refl 400, rfl⟩
      | some dt =>
        rw [hd]
        simp only [Option.getD_some, hc, hba, Bool.false_eq_true, if_false]
        exact ⟨(by omega : (400 : Nat) ≤ 404), trivial⟩
  · simp only [deleteCommunication, hm, hmba, Bool.false_eq_true, if_false]

/-- Witness for C1: user 1 against the case and communication of user 2. -/
theorem c1_cross_owner_denied_witness :
    getTimelineEvents stMain (some 1) 2 =
        ⟨404, errBody "Case not found or access denied"⟩ ∧
      (400 ≤ (createTimelineEvent stMain (some 1)
          (some ⟨some 2, some "2024-01-10", some "Trip", none, none, none,
                 none, none, none⟩)).1.status ∧
        (createTimelineEvent stMain (some 1)
          (some ⟨some 2, some "2024-01-10", some "Trip", none, none, none,
                 none, none, none⟩)).2 = stMain) ∧
      deleteCommunication stMain (some 1) 2 =
        (⟨403, errBody "Access denied"⟩, stMain) :=
  c1_cross_owner_denied stMain 1 2 2 2 case2 m2
    ⟨some 2, some "2024-01-10", some "Trip", none, none, none, none, none,
     none⟩
    (by decide) (by decide) (by decide) (by decide) (by decide) (by decide)

/-- C4 counterexample: the event_time column of the TimelineEvent model
is absent from the serialized entries of GET /api/timeline_events, so the
listing does not carry all fields of the event. -/
theorem c4_counterexample :
    "event_time" ∈ timelineEventFields ∧
      jsonKeys (serializeEvent ev1) =
        ["id", "event_date", "event_title", "event_description",
         "category", "evidence_type", "impact_level", "witness_present",
         "police_called", "created_at"] ∧
      "event_time" ∉ jsonKeys (serializeEvent ev1) ∧
      getTimelineEvents stMain (some 1) 1 =
        ⟨200, Json.arr [serializeEvent ev1]⟩ := by
  refine ⟨by decide, rfl, by decide, rfl⟩

/-- C4 amended: for an authenticated owner, GET /api/timeline_events
returns 200 with exactly the events of the case (as a permutation of the
filtered table), ordered by event_date non-decreasingly, each serialized
with its ISO-8601 date, its creation timestamp, and all fields of the
event except event_time and case_id. -/
theorem c4_list_events (st : AppState) (uid cid : Nat) (c : CaseRec)
    (hf : st.cases.find? (fun x => x.id == cid) = some c)
    (ho : c.user_id = uid) :
    getTimelineEvents st (some uid) cid =
        ⟨200, Json.arr ((caseEventsSorted st cid).map serializeEvent)⟩ ∧
      List.Perm (caseEventsSorted st cid)
        (st.events.filter (fun e => e.case_id == cid)) ∧
      List.Sorted Date.le
        ((caseEventsSorted st cid).map EventRec.event_date) ∧
      ∀ e : EventRec,
        jsonKeys (serializeEvent e) =
          ["id", "event_date", "event_title", "event_description",
           "category", "evidence_type", "impact_level", "witness_present",
           "police_called", "created_at"] ∧
        jsonGet (serializeEvent e) "event_date" =
          some (Json.str e.event_date.iso) ∧
        jsonGet (serializeEvent e) "created_at" =
          some (Json.nat e.created_at) := by
  have hua : (c.user_id == uid) = true := by rw [ho]; exact beq_self_eq_true uid
  refine ⟨?_, ?_, ?_, ?_⟩
  · simp only [getTimelineEvents, hf, hua, if_true]
  · exact List.perm_insertionSort evLe _
  · have hs := List.sorted_insertionSort evLe
      (st.events.filter (fun e => e.case_id == cid))
    exact List.pairwise_map.mpr hs
  · intro e
    exact ⟨rfl, rfl, rfl⟩

/-- Witness for C4 (amended): the owner of case 1 lists its events. -/
theorem c4_list_events_witness :
    getTimelineEvents stMain (some 1) 1 =
        ⟨200, Json.arr ((caseEventsSorted stMain 1).map serializeEvent)⟩ ∧
      List.Perm (caseEventsSorted stMain 1)
        (stMain.events.filter (fun e => e.case_id == 1)) ∧
      List.Sorted Date.le
        ((caseEventsSorted stMain 1).map EventRec.event_date) ∧
      ∀ e : EventRec,
        jsonKeys (serializeEvent e) =
          ["id", "event_date", "event_title", "event_description",
           "category", "evidence_type", "impact_level", "witness_present",
           "police_called", "created_at"] ∧
        jsonGet (serializeEvent e) "event_date" =
          some (Json.str e.event_date.iso) ∧
        jsonGet (serializeEvent e) "created_at" =
          some (Json.nat e.created_at) :=
  c4_list_events stMain 1 1 case1 (by decide) rfl

/- Export / reporting (C10).  src/app.py contains no /api/export route;
the spec describes it in its component design and endpoint table, so the
service is modelled from the spec here. -/

/-- Occurrence counts per distinct key, in first-appearance order. -/
def tally (keys : List String) : List (String × Nat) :=
  keys.dedup.map (fun k => (k, keys.count k))

/-- The largest count of a tally. -/
def maxCount (t : List (String × Nat)) : Nat :=
  (t.map Prod.snd).foldr max 0

/-- The keys of highest frequency. -/
def topGroups (keys : List String) : List String :=
  ((tally keys).filter (fun kn => kn.2 == maxCount (tally keys))).map
    Prod.fst

/-- Modelled from the spec: the export document of GET /api/export,
whose route is absent from src/app.py.  Per the spec it carries the case
title and focus, the events ordered by date ascending, and a
pattern-analysis section that groups events by category and by
evidence_type, counts occurrences, and surfaces the highest-frequency
groups. -/
structure ExportReport where
  case_title : String
  case_focus : String
  events : List EventRec
  categoryCounts : List (String × Nat)
  evidenceCounts : List (String × Nat)
  topCategories : List String
  topEvidence : List String

/-- Modelled from the spec: GET /api/export/case_id, absent from
src/app.py.  Loads the case and its events ordered by date ascending and
builds the report; 404 when the case is missing.  (The spec leaves the
ownership check an open question, and this claim does not depend on it.) -/
def exportCase (st : AppState) (cid : Nat) : Nat × Option ExportReport :=
  match st.cases.find? (fun c => c.id == cid) with
  | none => (404, none)
  | some c =>
    let evs := caseEventsSorted st cid
    (200, some ⟨c.case_title, c.case_focus, evs,
      tally (evs.map EventRec.category),
      tally (evs.map EventRec.evidence_type),
      topGroups (evs.map EventRec.category),
      topGroups (evs.map EventRec.evidence_type)⟩)

/-- A member of a list is bounded by the foldr of max over it. -/
theorem le_foldr_max {l : List Nat} {x : Nat} (h : x ∈ l) :
    x ≤ l.foldr max 0 := by
  induction l with
  | nil => cases h
  | cons a t ih =>
    rcases List.mem_cons.mp h with h1 | h1
    · rw [h1]; exact Nat.le_max_left a (t.foldr max 0)
    · exact Nat.le_trans (ih h1) (Nat.le_max_right a (t.foldr max 0))

/-- Every tally entry carries the exact occurrence count of its key, and
that count is positive. -/
theorem tally_mem_count {keys : List String} {kn : String × Nat}
    (h : kn ∈ tally keys) : kn.2 = keys.count kn.1 ∧ 0 < kn.2 := by
  rcases List.mem_map.mp h with ⟨k, hk, he⟩
  rcases he
  refine ⟨rfl, ?_⟩
  exact List.count_pos_iff.mpr (List.mem_dedup.mp hk)

/-- No key occurs more often than the maximal tally count. -/
theorem count_le_maxCount {keys : List String} {k : String}
    (h : k ∈ keys) : keys.count k ≤ maxCount (tally keys) := by
  apply le_foldr_max
  apply List.mem_map.mpr
  refine ⟨(k, keys.count k), ?_, rfl⟩
  exact List.mem_map.mpr ⟨k, List.mem_dedup.mpr h, rfl⟩

/-- Every surfaced top group has the maximal occurrence count. -/
theorem topGroups_count {keys : List String} {k : String}
    (h : k ∈ topGroups keys) :
    keys.count k = maxCount (tally keys) := by
  rcases List.mem_map.mp h with ⟨kn, hkn, he⟩
  rcases List.mem_filter.mp hkn with ⟨ht, hb⟩
  have h2 := (tally_mem_count ht).1
  rcases he
  rw [← h2]
  exact beq_iff_eq.mp hb

/-- The foldr of max over a list is zero or one of its members. -/
theorem foldr_max_mem (l : List Nat) :
    l.foldr max 0 = 0 ∨ l.foldr max 0 ∈ l := by
  induction l with
  | nil => exact Or.inl rfl
  | cons a t ih =>
    rcases ih with h0 | hm
    · rcases Nat.le_total a (t.foldr max 0) with h | h
      · left
        simp only [List.foldr_cons]
        omega
      · right
        simp only [List.foldr_cons]
        rw [Nat.max_eq_left h]
        exact List.mem_cons_self a t
    · rcases Nat.le_total a (t.foldr max 0) with h | h
      · right
        simp only [List.foldr_cons]
        rw [Nat.max_eq_right h]
        exact List.mem_cons_of_mem a hm
      · right
        simp only [List.foldr_cons]
        rw [Nat.max_eq_left h]
        exact List.mem_cons_self a t

/-- The maximal tally count is zero or the count of some key. -/
theorem maxCount_cases (keys : List String) :
    maxCount (tally keys) = 0 ∨
      ∃ k ∈ keys, maxCount (tally keys) = keys.count k := by
  rcases foldr_max_mem ((tally keys).map Prod.snd) with h | h
  · exact Or.inl h
  · right
    rcases List.mem_map.mp h with ⟨kn, hkn, he⟩
    rcases List.mem_map.mp hkn with ⟨k, hk, hke⟩
    refine ⟨k, List.mem_dedup.mp hk, ?_⟩
    have h2 : maxCount (tally keys) = kn.2 := he.symm
    rw [h2, ← hke]

/-- Every key of maximal occurrence count is surfaced. -/
theorem topGroups_complete {keys : List String} {k : String}
    (h : k ∈ keys) (hc : keys.count k = maxCount (tally keys)) :
    k ∈ topGroups keys := by
  apply List.mem_map.mpr
  refine ⟨(k, keys.count k), ?_, rfl⟩
  apply List.mem_filter.mpr
  refine ⟨List.mem_map.mpr ⟨k, List.mem_dedup.mpr h, rfl⟩, ?_⟩
  exact beq_iff_eq.mpr hc

/-- Every surfaced top group is a key that occurs. -/
theorem topGroups_subset {keys : List String} {k : String}
    (h : k ∈ topGroups keys) : k ∈ keys := by
  rcases List.mem_map.mp h with ⟨kn, hkn, he⟩
  rcases List.mem_filter.mp hkn with ⟨ht, _⟩
  rcases List.mem_map.mp ht with ⟨k2, hk2, hke⟩
  rcases hke
  rcases he
  exact List.mem_dedup.mp hk2

/-- The pattern-analysis contract for one grouping: the counts list
carries the exact positive occurrence count of each of its keys and
covers every occurring key, and the surfaced groups are exactly the
occurring keys of maximal occurrence count. -/
def groupsSummarise (keys : List String) (counts : List (String × Nat))
    (top : List String) : Prop :=
  (∀ kn ∈ counts, kn.2 = keys.count kn.1 ∧ 0 < kn.2) ∧
  (∀ k ∈ keys, (k, keys.count k) ∈ counts) ∧
  (∀ k ∈ top, k ∈ keys ∧ ∀ k2 ∈ keys, keys.count k2 ≤ keys.count k) ∧
  (∀ k ∈ keys, (∀ k2 ∈ keys, keys.count k2 ≤ keys.count k) → k ∈ top)

/-- The tally and its top groups satisfy the pattern-analysis contract. -/
theorem tally_topGroups_summarise (keys : List String) :
    groupsSummarise keys (tally keys) (topGroups keys) := by
  refine ⟨?_, ?_, ?_, ?_⟩
  · intro kn hkn; exact tally_mem_count hkn
  · intro k hk
    exact List.mem_map.mpr ⟨k, List.mem_dedup.mpr hk, rfl⟩
  · intro k hk
    refine ⟨topGroups_subset hk, ?_⟩
    intro k2 hk2
    rw [topGroups_count hk]
    exact count_le_maxCount hk2
  · intro k hk hmax
    apply topGroups_complete hk
    refine Nat.le_antisymm (count_le_maxCount hk) ?_
    rcases maxCount_cases keys with h0 | ⟨k2, hk2, he⟩
    · rw [h0]; exact Nat.zero_le _
    · rw [he]; exact hmax k2 hk2

/-- C10: for a missing case the export is a 404 with no document; for an
existing case it is a 200 document whose event list is the case's events
ordered by date ascending, and whose pattern-analysis section satisfies
the grouping contract for category and for evidence_type alike: exact
positive counts covering every occurring key, and the surfaced groups
exactly the occurring keys of highest frequency.  The export service is
modelled from the spec, as src/app.py has no export route. -/
theorem c10_export_shape (st : AppState) (cid : Nat) :
    (st.cases.find? (fun x => x.id == cid) = none →
      exportCase st cid = (404, none)) ∧
    ∀ c, st.cases.find? (fun x => x.id == cid) = some c →
      (exportCase st cid).1 = 200 ∧
      ∃ r, (exportCase st cid).2 = some r ∧
        r.case_title = c.case_title ∧
        r.case_focus = c.case_focus ∧
        r.events = caseEventsSorted st cid ∧
        List.Sorted Date.le (r.events.map EventRec.event_date) ∧
        groupsSummarise (r.events.map EventRec.category)
          r.categoryCounts r.topCategories ∧
        groupsSummarise (r.events.map EventRec.evidence_type)
          r.evidenceCounts r.topEvidence := by
  constructor
  · intro h
    simp only [exportCase, h]
  · intro c hf
    have hE : exportCase st cid =
        (200, some ⟨c.case_title, c.case_focus, caseEventsSorted st cid,
          tally ((caseEventsSorted st cid).map EventRec.category),
          tally ((caseEventsSorted st cid).map EventRec.evidence_type),
          topGroups ((caseEventsSorted st cid).map EventRec.category),
          topGroups ((caseEventsSorted st cid).map
            EventRec.evidence_type)⟩) := by
      simp only [exportCase, hf]
    rw [hE]
    refine ⟨rfl, ⟨_, rfl, rfl, rfl, rfl, ?_,
      tally_topGroups_summarise _, tally_topGroups_summarise _⟩⟩
    have hs := List.sorted_insertionSort evLe
      (st.events.filter (fun e => e.case_id == cid))
    exact List.pairwise_map.mpr hs

/- Dashboard recent events (C7): the per-case limit-5 collection followed
by a global sort and truncation yields a global top 5. -/

theorem Date.le_refl (a : Date) : Date.le a a := by
  unfold Date.le; omega

/-- The event has a strictly later date than y. -/
def strictlyAfter (y e : EventRec) : Prop :=
  ¬ Date.le e.event_date y.event_date

instance strictlyAfter.dec (y : EventRec) :
    DecidablePred (strictlyAfter y) := fun e => by
  unfold strictlyAfter; infer_instance

/-- In a list sorted by descending event date, everything kept by take
dominates everything dropped. -/
theorem sorted_take_dominates {l : List EventRec} {k : Nat}
    (hs : List.Sorted evGe l) {y x : EventRec}
    (hy : y ∈ l.take k) (hx : x ∈ l.drop k) :
    Date.le x.event_date y.event_date := by
  have hsp : List.Pairwise evGe (l.take k ++ l.drop k) := by
    rw [List.take_append_drop]; exact hs
  exact (List.pairwise_append.mp hsp).2.2 y hy x hx

/-- In a list sorted by descending event date, a member of the first k
positions is strictly preceded in date by fewer than k elements of the
whole list. -/
theorem sorted_take_strict_count {l : List EventRec} {k : Nat}
    {y : EventRec} (hs : List.Sorted evGe l) (hy : y ∈ l.take k) :
    l.countP (fun e => decide (strictlyAfter y e)) < k := by
  induction l generalizing k with
  | nil => simp at hy
  | cons a t ih =>
    cases k with
    | zero => simp at hy
    | succ k =>
      rw [List.take_succ_cons] at hy
      rcases List.mem_cons.mp hy with hya | hy2
      · have h0 : (a :: t).countP
            (fun e => decide (strictlyAfter y e)) = 0 := by
          apply List.countP_eq_zero.mpr
          intro e he
          rw [decide_eq_true_eq, hya]
          intro hstr
          rcases List.mem_cons.mp he with rfl | he2
          · exact hstr (Date.le_refl _)
          · exact hstr (List.rel_of_sorted_cons hs e he2)
        rw [h0]; omega
      · have ih2 := ih hs.of_cons hy2
        rw [List.countP_cons]
        have hb : (if decide (strictlyAfter y a) = true then 1 else 0) ≤
            1 := by split <;> omega
        omega

/-- Membership in A - C splits through any intermediate B. -/
theorem mem_sub_split {α : Type} [DecidableEq α] {A C : Multiset α}
    (B : Multiset α) {x : α} (hx : x ∈ A - C) :
    x ∈ A - B ∨ x ∈ B - C := by
  by_contra hcon
  push_neg at hcon
  have h1 : A.count x - B.count x = 0 := by
    rw [← Multiset.count_sub]; exact Multiset.count_eq_zero.mpr hcon.1
  have h2 : B.count x - C.count x = 0 := by
    rw [← Multiset.count_sub]; exact Multiset.count_eq_zero.mpr hcon.2
  have h3 : 0 < A.count x - C.count x := by
    rw [← Multiset.count_sub]; exact Multiset.count_pos.mpr hx
  omega

/-- Componentwise subtraction of a sum of multisets. -/
theorem add_sub_add_of_le {α : Type} [DecidableEq α]
    {A B C D : Multiset α} (h1 : C ≤ A) (h2 : D ≤ B) :
    (A + B) - (C + D) = (A - C) + (B - D) := by
  ext a
  rw [Multiset.count_sub, Multiset.count_add, Multiset.count_add,
    Multiset.count_add, Multiset.count_sub, Multiset.count_sub]
  have hc1 := Multiset.le_iff_count.mp h1 a
  have hc2 := Multiset.le_iff_count.mp h2 a
  omega

/-- Pointwise domination of parts gives domination of the flattened
lists, as multisets. -/
theorem flatten_coe_le {cs : List CaseRec} {f g : CaseRec → List EventRec}
    (hfg : ∀ c, (↑(f c) : Multiset EventRec) ≤ ↑(g c)) :
    (↑((cs.map f).flatten) : Multiset EventRec) ≤ ↑((cs.map g).flatten) := by
  induction cs with
  | nil => exact le_refl _
  | cons c t ih =>
    simp only [List.map_cons, List.flatten_cons]
    rw [← Multiset.coe_add, ← Multiset.coe_add]
    exact add_le_add (hfg c) ih

/-- What the flatten of the dominating family loses beyond the flatten of
the dominated family is lost by a single part. -/
theorem mem_flatten_sub {cs : List CaseRec}
    {f g : CaseRec → List EventRec}
    (hfg : ∀ c, (↑(f c) : Multiset EventRec) ≤ ↑(g c)) {x : EventRec}
    (hx : x ∈ (↑((cs.map g).flatten) : Multiset EventRec) -
      ↑((cs.map f).flatten)) :
    ∃ c ∈ cs, x ∈ (↑(g c) : Multiset EventRec) - ↑(f c) := by
  induction cs with
  | nil => simp at hx
  | cons c t ih =>
    simp only [List.map_cons, List.flatten_cons] at hx
    rw [← Multiset.coe_add, ← Multiset.coe_add,
      add_sub_add_of_le (hfg c) (flatten_coe_le hfg)] at hx
    rcases Multiset.mem_add.mp hx with h | h
    · exact ⟨c, List.mem_cons_self c t, h⟩
    · rcases ih h with ⟨c2, hc2, hx2⟩
      exact ⟨c2, List.mem_cons_of_mem c hc2, hx2⟩

/-- One part of a flatten embeds into it, as multisets. -/
theorem coe_le_flatten {cs : List CaseRec} {f : CaseRec → List EventRec}
    {c : CaseRec} (hc : c ∈ cs) :
    (↑(f c) : Multiset EventRec) ≤ ↑((cs.map f).flatten) := by
  induction cs with
  | nil => cases hc
  | cons a t ih =>
    simp only [List.map_cons, List.flatten_cons]
    rw [← Multiset.coe_add]
    rcases List.mem_cons.mp hc with h1 | h2
    · rw [h1]; exact self_le_add_right _ _
    · exact le_trans (ih h2) (self_le_add_left _ _)

/-- A take is below the whole list, as multisets. -/
theorem coe_take_le (l : List EventRec) (k : Nat) :
    (↑(l.take k) : Multiset EventRec) ≤ ↑l := by
  conv_rhs => rw [← List.take_append_drop k l]
  rw [← Multiset.coe_add]
  exact self_le_add_right _ _

/-- What a list loses to the take of its descending sort is the drop of
that sort. -/
theorem coe_sub_take (l : List EventRec) (k : Nat) :
    (↑l : Multiset EventRec) - ↑((List.insertionSort evGe l).take k) =
      ↑((List.insertionSort evGe l).drop k) := by
  have hp : (↑l : Multiset EventRec) = ↑(List.insertionSort evGe l) :=
    (Multiset.coe_eq_coe.mpr (List.perm_insertionSort evGe l)).symm
  have key : (↑(List.insertionSort evGe l) : Multiset EventRec) =
      ↑((List.insertionSort evGe l).take k) +
        ↑((List.insertionSort evGe l).drop k) := by
    rw [Multiset.coe_add, List.take_append_drop]
  rw [hp, key, add_tsub_cancel_left]

/-- Capping at 5 commutes with capping each part at 5. -/
theorem min5_flatten_length (cs : List CaseRec)
    (f g : CaseRec → List EventRec)
    (h : ∀ c, (f c).length = min 5 (g c).length) :
    min 5 ((cs.map f).flatten).length =
      min 5 ((cs.map g).flatten).length := by
  induction cs with
  | nil => rfl
  | cons c t ih =>
    simp only [List.map_cons, List.flatten_cons, List.length_append]
    have hc := h c
    omega

/-- The per-case limit-5 query keeps a sub-multiset of the case events. -/
theorem caseTop5_coe_le (st : AppState) (cid : Nat) :
    (↑(caseTop5 st cid) : Multiset EventRec) ≤
      ↑(st.events.filter (fun e => e.case_id == cid)) :=
  calc (↑(caseTop5 st cid) : Multiset EventRec) ≤
      ↑(List.insertionSort evGe
        (st.events.filter (fun e => e.case_id == cid))) :=
    coe_take_le _ 5
  _ = ↑(st.events.filter (fun e => e.case_id == cid)) :=
    Multiset.coe_eq_coe.mpr (List.perm_insertionSort evGe _)

/-- The events of the cases of a user dominate the dashboard pool. -/
theorem pool_le_all (st : AppState) (uid : Nat) :
    (↑(dashboardPool st uid) : Multiset EventRec) ≤
      ↑(dashboardAll st uid) := by
  unfold dashboardPool dashboardAll
  apply flatten_coe_le
  intro c
  exact caseTop5_coe_le st c.id

/-- C7: the recent-events list of the dashboard is a global top 5 of all
the events of the cases of the user: it has length min 5 n where n is the
number of those events, it is ordered by event_date descending, it is a
sub-multiset of those events, and every event it leaves out has an
event_date at most that of every event it shows. -/
theorem c7_dashboard_recent_top5 (st : AppState) (uid : Nat) :
    (dashboardRecent st uid).length = min 5 (dashboardAll st uid).length ∧
      List.Sorted evGe (dashboardRecent st uid) ∧
      (↑(dashboardRecent st uid) : Multiset EventRec) ≤
        ↑(dashboardAll st uid) ∧
      ∀ y ∈ dashboardRecent st uid,
        ∀ x ∈ (↑(dashboardAll st uid) : Multiset EventRec) -
          ↑(dashboardRecent st uid),
          Date.le x.event_date y.event_date := by
  have hres_le_pool : (↑(dashboardRecent st uid) : Multiset EventRec) ≤
      ↑(dashboardPool st uid) := by
    unfold dashboardRecent
    calc (↑((List.insertionSort evGe (dashboardPool st uid)).take 5) :
        Multiset EventRec) ≤
        ↑(List.insertionSort evGe (dashboardPool st uid)) :=
      coe_take_le _ 5
    _ = ↑(dashboardPool st uid) :=
      Multiset.coe_eq_coe.mpr (List.perm_insertionSort evGe _)
  have hpool := pool_le_all st uid
  refine ⟨?_, ?_, le_trans hres_le_pool hpool, ?_⟩
  · have hlen : (dashboardRecent st uid).length =
        min 5 (dashboardPool st uid).length := by
      unfold dashboardRecent
      rw [List.length_take, List.length_insertionSort]
    rw [hlen]
    unfold dashboardPool dashboardAll
    apply min5_flatten_length
    intro c
    unfold caseTop5
    rw [List.length_take, List.length_insertionSort]
  · have hs := List.sorted_insertionSort evGe (dashboardPool st uid)
    exact hs.sublist (List.take_sublist 5 _)
  · intro y hy x hx
    by_contra hxy
    have hyp : y ∈ (List.insertionSort evGe (dashboardPool st uid)).take 5 :=
      hy
    rcases mem_sub_split (↑(dashboardPool st uid) : Multiset EventRec) hx
      with h1 | h2
    · unfold dashboardAll dashboardPool at h1
      rcases mem_flatten_sub (fun c => caseTop5_coe_le st c.id) h1
        with ⟨c, hc, hxc⟩
      have h3 : (↑(st.events.filter (fun e => e.case_id == c.id)) :
          Multiset EventRec) - ↑(caseTop5 st c.id) =
          ↑((List.insertionSort evGe
            (st.events.filter (fun e => e.case_id == c.id))).drop 5) :=
        coe_sub_take _ 5
      rw [h3] at hxc
      have hxc2 : x ∈ (List.insertionSort evGe
          (st.events.filter (fun e => e.case_id == c.id))).drop 5 :=
        Multiset.mem_coe.mp hxc
      have hlen5 : ((List.insertionSort evGe
          (st.events.filter (fun e => e.case_id == c.id))).take 5).length =
          5 := by
        have hne := List.ne_nil_of_mem hxc2
        have hld := List.length_pos.mpr hne
        rw [List.length_drop] at hld
        rw [List.length_take]
        omega
      have hdom : ∀ z ∈ (List.insertionSort evGe
          (st.events.filter (fun e => e.case_id == c.id))).take 5,
          decide (strictlyAfter y z) = true := by
        intro z hz
        rw [decide_eq_true_eq]
        intro hzy
        exact hxy (Date.le_trans
          (sorted_take_dominates
            (List.sorted_insertionSort evGe _) hz hxc2) hzy)
      have hTcount : (caseTop5 st c.id).countP
          (fun e => decide (strictlyAfter y e)) = 5 := by
        show ((List.insertionSort evGe
          (st.events.filter (fun e => e.case_id == c.id))).take 5).countP
            (fun e => decide (strictlyAfter y e)) = 5
        rw [List.countP_eq_length.mpr hdom]
        exact hlen5
      have hT_le_pool : (↑(caseTop5 st c.id) : Multiset EventRec) ≤
          ↑(dashboardPool st uid) := by
        unfold dashboardPool
        exact coe_le_flatten hc
      have h5 : 5 ≤ Multiset.countP (strictlyAfter y)
          (↑(dashboardPool st uid) : Multiset EventRec) := by
        have hle := Multiset.countP_le_of_le (strictlyAfter y) hT_le_pool
        rw [Multiset.coe_countP, hTcount] at hle
        rw [Multiset.coe_countP]
        exact hle
      have hup : Multiset.countP (strictlyAfter y)
          (↑(dashboardPool st uid) : Multiset EventRec) < 5 := by
        rw [Multiset.coe_countP]
        have hcnt := sorted_take_strict_count
          (List.sorted_insertionSort evGe (dashboardPool st uid)) hyp
        rw [← (List.perm_insertionSort evGe (dashboardPool st uid)).countP_eq
          (fun e => decide (strictlyAfter y e))]
        exact hcnt
      omega
    · unfold dashboardRecent at h2
      rw [coe_sub_take] at h2
      exact hxy (sorted_take_dominates
        (List.sorted_insertionSort evGe (dashboardPool st uid)) hyp
        (Multiset.mem_coe.mp h2))

end App
